import Mathlib

/-!
# BidVault email synchronization engine — verification development

Shallow embedding of the Gmail synchronization engine of the BidVault
repository: header parsing, recursive MIME part-tree extraction,
pagination, attachment offloading, idempotent persistence and checkpoint
tracking, together with theorems about the properties the design
documentation states for them.

External JavaScript primitives (the wall clock `new Date()`, the base64
decoder `Buffer.from(..., base64)`, the `Date` string parser, and the
Gmail/Drive remote calls) are modelled as explicit parameters or input
data; everything else is translated directly from the source.
-/

set_option autoImplicit false

namespace BidVault

/-- JavaScript truthiness of an optional string: `undefined`/`null` and the
empty string are falsy, every other string is truthy. -/
def jsTruthyStr : Option String → Bool
  | none => false
  | some s => s ≠ ""

/-- A JavaScript `Date` value as it flows through the code: `null` (no header
seen), a valid instant (milliseconds since epoch), or an Invalid Date
produced by `new Date` on an unparsable string.  Note that in JavaScript an
Invalid Date is an object and therefore truthy. -/
inductive JSDate where
  | nullDate : JSDate
  | valid : Nat → JSDate
  | invalid : JSDate
  deriving DecidableEq, Repr

/-- `new Date(s)`: a valid instant when the engine's date parser accepts the
string, an Invalid Date otherwise.  The parser itself is an external
primitive and is passed in as a function. -/
def jsNewDate (dateParse : String → Option Nat) (s : String) : JSDate :=
  match dateParse s with
  | some t => JSDate.valid t
  | none => JSDate.invalid

/-- `email.date || new Date()` as written in `storeEmailInDatabase`: only a
`null` date is replaced by the current time, because an Invalid Date is
truthy in JavaScript. -/
def jsDateOrNow (d : JSDate) (now : Nat) : JSDate :=
  match d with
  | JSDate.nullDate => JSDate.valid now
  | x => x

/-- `s || fallback` for strings: the empty string is falsy. -/
def jsOrString (s fallback : String) : String :=
  if s = "" then fallback else s

/-- `s || null` for an optional string: `null`, `undefined` and `""` all
collapse to `null`. -/
def jsOrNull (s : Option String) : Option String :=
  match s with
  | none => none
  | some v => if v = "" then none else some v

/-- The `body` object of a Gmail message part. -/
structure PartBody where
  data : Option String
  size : Option Nat
  attachmentId : Option String
  deriving DecidableEq, Repr

/-- A node of the Gmail part tree (the `payload` of a message is itself such
a node).  `children` is the `parts` array; an absent `parts` field is
modelled as the empty list. -/
inductive MsgPart where
  | mk : String → Option String → PartBody → Option String → List MsgPart → MsgPart
  deriving Repr

def MsgPart.mimeType : MsgPart → String
  | MsgPart.mk m _ _ _ _ => m

def MsgPart.filename : MsgPart → Option String
  | MsgPart.mk _ f _ _ _ => f

def MsgPart.body : MsgPart → PartBody
  | MsgPart.mk _ _ b _ _ => b

def MsgPart.partId : MsgPart → Option String
  | MsgPart.mk _ _ _ i _ => i

def MsgPart.children : MsgPart → List MsgPart
  | MsgPart.mk _ _ _ _ c => c

/-- A header of a Gmail message. -/
structure EmailHeader where
  name : String
  value : String
  deriving DecidableEq, Repr

/-- A full Gmail message as returned by `users.messages.get`. -/
structure GmailMessage where
  id : String
  threadId : String
  snippet : Option String
  labelIds : List String
  payload : Option MsgPart
  headers : List EmailHeader
  deriving Repr

/-- Transient extraction result for one attachment part
(`decodeEmailBody` pushes these onto `result.attachments`). -/
structure AttachmentDescriptor where
  filename : String
  mimeType : String
  size : Nat
  attachmentId : Option String
  partId : String
  deriving DecidableEq, Repr

/-- The attachment record built from a part in `decodeEmailBody`:
`{filename, mimeType, size: part.body.size || 0, attachmentId,
partId: part.partId || ''}`. -/
def descriptorOf (p : MsgPart) : AttachmentDescriptor :=
  { filename := p.filename.getD ""
    mimeType := p.mimeType
    size := p.body.size.getD 0
    attachmentId := p.body.attachmentId
    partId := p.partId.getD "" }

/-- The mutable `result` object of `decodeEmailBody`. -/
structure BodyResult where
  text : Option String
  html : Option String
  attachments : List AttachmentDescriptor
  deriving DecidableEq, Repr

def emptyBody : BodyResult := ⟨none, none, []⟩

/-- `part.mimeType === 'text/plain' && part.body.data`. -/
def isTextPlainNode (p : MsgPart) : Bool :=
  p.mimeType = "text/plain" && jsTruthyStr p.body.data

/-- `part.mimeType === 'text/html' && part.body.data`. -/
def isTextHtmlNode (p : MsgPart) : Bool :=
  p.mimeType = "text/html" && jsTruthyStr p.body.data

/-- A part that falls through to the attachment branch of the `if` chain in
`processParts`: not an inline text part of either kind, and carrying a
non-empty filename. -/
def isAttachmentNode (p : MsgPart) : Bool :=
  !isTextPlainNode p && !isTextHtmlNode p && jsTruthyStr p.filename

/-- The body of the `forEach` in `processParts`, applied to a single part
before recursing into its children.  `decode` models
`Buffer.from(data, base64).toString(utf8)`. -/
def stepPart (decode : String → String) (r : BodyResult) (p : MsgPart) : BodyResult :=
  if isTextPlainNode p then { r with text := some (decode (p.body.data.getD "")) }
  else if isTextHtmlNode p then { r with html := some (decode (p.body.data.getD "")) }
  else if jsTruthyStr p.filename then
    { r with attachments := r.attachments ++ [descriptorOf p] }
  else r

mutual

/-- One part inside `processParts` of `decodeEmailBody` (the recursive,
attachment-aware variant): handle the node, then recurse into `part.parts`. -/
def processPart (decode : String → String) (r : BodyResult) : MsgPart → BodyResult
  | MsgPart.mk mt fn b pid children =>
    processParts decode (stepPart decode r (MsgPart.mk mt fn b pid children)) children

/-- `processParts` of `decodeEmailBody`: fold the step over the parts array. -/
def processParts (decode : String → String) (r : BodyResult) : List MsgPart → BodyResult
  | [] => r
  | p :: rest => processParts decode (processPart decode r p) rest

end

/-- `decodeEmailBody` as implemented in the attachment-handling sync engine:
multipart messages are walked recursively by `processParts`; a single-part
message only ever contributes inline text or HTML. -/
def decodeEmailBody (decode : String → String) (m : GmailMessage) : BodyResult :=
  match m.payload with
  | none => emptyBody
  | some payload =>
    if payload.children.isEmpty then
      if jsTruthyStr payload.body.data then
        if payload.mimeType = "text/plain" then
          { emptyBody with text := some (decode (payload.body.data.getD "")) }
        else if payload.mimeType = "text/html" then
          { emptyBody with html := some (decode (payload.body.data.getD "")) }
        else emptyBody
      else emptyBody
    else processParts decode emptyBody payload.children

/-- The `body` accumulator of the legacy `decodeEmailBody` in
`src/scripts/fetchGmailEmails.js`, which extracts no attachments. -/
structure TextHtml where
  text : Option String
  html : Option String
  deriving DecidableEq, Repr

/-- The text/html classification shared by both loop levels of the legacy
`decodeEmailBody`. -/
def legacyStep (decode : String → String) (b : TextHtml) (p : MsgPart) : TextHtml :=
  if isTextPlainNode p then { b with text := some (decode (p.body.data.getD "")) }
  else if isTextHtmlNode p then { b with html := some (decode (p.body.data.getD "")) }
  else b

/-- `decodeEmailBody` of `src/scripts/fetchGmailEmails.js`: it visits only the
top-level parts and one further level of nested parts (no recursion), and it
records no attachments at all. -/
def decodeEmailBodyLegacy (decode : String → String) (m : GmailMessage) : TextHtml :=
  match m.payload with
  | none => ⟨none, none⟩
  | some payload =>
    if payload.children.isEmpty then
      if jsTruthyStr payload.body.data then
        if payload.mimeType = "text/plain" then
          ⟨some (decode (payload.body.data.getD "")), none⟩
        else if payload.mimeType = "text/html" then
          ⟨none, some (decode (payload.body.data.getD ""))⟩
        else ⟨none, none⟩
      else ⟨none, none⟩
    else
      payload.children.foldl
        (fun b p =>
          let b1 := legacyStep decode b p
          p.children.foldl (fun b2 q => legacyStep decode b2 q) b1)
        ⟨none, none⟩

/-- The metadata accumulator of `parseEmailHeaders` in the script variants
(`fetchGmailEmails.js`, the attachment-handling script): there is no
separate CC field. -/
structure HeaderMetaScript where
  subject : String
  sender : String
  recipients : List String
  date : JSDate
  deriving DecidableEq, Repr

/-- The metadata accumulator of `parseEmailHeaders` in the API route, which
adds a separate `ccRecipients` field. -/
structure HeaderMetaRoute where
  subject : String
  sender : String
  recipients : List String
  ccRecipients : List String
  date : JSDate
  deriving DecidableEq, Repr

/-- Executable model of JavaScript `toLowerCase()` (ASCII case folding on
the character list, which is what header names need). -/
def strToLower (s : String) : String :=
  String.mk (s.toList.map Char.toLower)

/-- Comma splitting on a character list: JavaScript `split(",")`, which on
an empty string yields `[""]` and keeps empty fields. -/
def splitCommaAux : List Char → List Char → List (List Char)
  | [], cur => [cur.reverse]
  | c :: rest, cur =>
    if c = ',' then cur.reverse :: splitCommaAux rest []
    else splitCommaAux rest (c :: cur)

/-- Executable model of JavaScript `split(",")`. -/
def jsSplitComma (s : String) : List String :=
  (splitCommaAux s.toList []).map String.mk

/-- Executable model of JavaScript `trim()`: drop whitespace from both
ends. -/
def jsTrim (s : String) : String :=
  String.mk
    ((s.toList.dropWhile Char.isWhitespace).reverse.dropWhile Char.isWhitespace).reverse

/-- `header.value.split(comma).map(email => email.trim())`. -/
def splitTrim (v : String) : List String :=
  (jsSplitComma v).map jsTrim

/-- One iteration of the `forEach` in the script variants of
`parseEmailHeaders`.  The `cc` case appends the split CC addresses to the
primary `recipients` list. -/
def stepHeaderScript (dateParse : String → Option Nat)
    (md : HeaderMetaScript) (h : EmailHeader) : HeaderMetaScript :=
  if strToLower h.name = "subject" then { md with subject := h.value }
  else if strToLower h.name = "from" then { md with sender := h.value }
  else if strToLower h.name = "to" then { md with recipients := splitTrim h.value }
  else if strToLower h.name = "cc" then
    { md with recipients := md.recipients ++ splitTrim h.value }
  else if strToLower h.name = "date" then { md with date := jsNewDate dateParse h.value }
  else md

/-- `parseEmailHeaders` of `src/scripts/fetchGmailEmails.js` and of the
attachment-handling script: CC addresses are merged into `recipients`. -/
def parseEmailHeaders (dateParse : String → Option Nat)
    (headers : List EmailHeader) : HeaderMetaScript :=
  headers.foldl (stepHeaderScript dateParse) ⟨"", "", [], JSDate.nullDate⟩

/-- One iteration of the `forEach` in the API route variant of
`parseEmailHeaders`: the `cc` case writes only the `ccRecipients` field
(non-blank value: split, trim, drop empties; otherwise the empty list). -/
def stepHeaderRoute (dateParse : String → Option Nat)
    (md : HeaderMetaRoute) (h : EmailHeader) : HeaderMetaRoute :=
  if strToLower h.name = "subject" then { md with subject := h.value }
  else if strToLower h.name = "from" then { md with sender := h.value }
  else if strToLower h.name = "to" then { md with recipients := splitTrim h.value }
  else if strToLower h.name = "cc" then
    if h.value ≠ "" ∧ jsTrim h.value ≠ "" then
      { md with ccRecipients := (splitTrim h.value).filter (fun e => e ≠ "") }
    else { md with ccRecipients := [] }
  else if strToLower h.name = "date" then { md with date := jsNewDate dateParse h.value }
  else md

/-- `parseEmailHeaders` of the `/api/emails` route: CC recipients are kept in
their own field, never merged into `recipients`. -/
def parseEmailHeadersRoute (dateParse : String → Option Nat)
    (headers : List EmailHeader) : HeaderMetaRoute :=
  headers.foldl (stepHeaderRoute dateParse) ⟨"", "", [], [], JSDate.nullDate⟩

/-- A Google Drive file reference returned by `uploadToDrive`
(`fields: id, name, webViewLink`). -/
structure DriveFile where
  id : String
  link : String
  deriving DecidableEq, Repr

/-- A persisted `Attachment` row (`prisma.attachment.create`). -/
structure AttachmentRow where
  emailId : Nat
  fileName : String
  mimeType : String
  fileSize : Nat
  driveFileId : String
  driveLink : String
  deriving DecidableEq, Repr

/-- A persisted `Email` row of the Prisma schema. -/
structure EmailRow where
  id : Nat
  messageId : String
  threadId : String
  userId : String
  subject : String
  sender : String
  recipients : List String
  ccRecipients : List String
  body : Option String
  bodyHtml : Option String
  snippet : String
  receivedAt : JSDate
  isRead : Bool
  labels : List String
  attachmentLinks : List String
  deriving DecidableEq, Repr

/-- The relational store: `Email` and `Attachment` tables plus the id
generator behind `@default(cuid())`, modelled as a counter. -/
structure DB where
  emails : List EmailRow
  attachments : List AttachmentRow
  nextId : Nat
  deriving DecidableEq, Repr

/-- The `email` object assembled by the caller of `storeEmailInDatabase`
(the API route shape, which carries `ccRecipients` and puts the extracted
attachments inside `body`). -/
structure EmailInput where
  id : String
  threadId : String
  subject : String
  sender : String
  recipients : List String
  ccRecipients : List String
  date : JSDate
  snippet : String
  body : BodyResult
  labels : List String
  deriving DecidableEq, Repr

/-- One iteration of the `for` loop of `processAttachments`: a descriptor
without an `attachmentId` is skipped, a failed download/upload (the
`offload` oracle returning `none`, standing for the per-attachment
`try/catch`) is logged and skipped, and each success creates one
`Attachment` row for the owning email. -/
def attachmentStep (offload : AttachmentDescriptor → Option DriveFile) (emailId : Nat)
    (acc : List AttachmentRow × DB) (a : AttachmentDescriptor) :
    List AttachmentRow × DB :=
  if !jsTruthyStr a.attachmentId then acc
  else
    match offload a with
    | none => acc
    | some df =>
      let row : AttachmentRow :=
        ⟨emailId, a.filename, a.mimeType, a.size, df.id, df.link⟩
      (acc.1 ++ [row], { acc.2 with attachments := acc.2.attachments ++ [row] })

/-- `processAttachments`: walk the descriptors in order, accumulating the
successfully stored `Attachment` rows and the updated store. -/
def processAttachments (offload : AttachmentDescriptor → Option DriveFile)
    (attachments : List AttachmentDescriptor) (emailId : Nat) (db : DB) :
    List AttachmentRow × DB :=
  attachments.foldl (attachmentStep offload emailId) ([], db)

/-- The `Email` row created by `storeEmailInDatabase` for a fresh message,
before any attachment links are written. -/
def newRowOf (now : Nat) (email : EmailInput) (userId : String) (db : DB) : EmailRow :=
  { id := db.nextId
    messageId := email.id
    threadId := email.threadId
    userId := userId
    subject := jsOrString email.subject "No Subject"
    sender := jsOrString email.sender "Unknown Sender"
    recipients := email.recipients
    ccRecipients := email.ccRecipients
    body := jsOrNull email.body.text
    bodyHtml := jsOrNull email.body.html
    snippet := jsOrString email.snippet ""
    receivedAt := jsDateOrNow email.date now
    isRead := false
    labels := email.labels
    attachmentLinks := [] }

/-- The store right after `prisma.email.create` inserted the fresh row. -/
def dbAfterInsert (now : Nat) (email : EmailInput) (userId : String) (db : DB) : DB :=
  { db with
    emails := db.emails ++ [newRowOf now email userId db]
    nextId := db.nextId + 1 }

/-- The `storedAttachments` list produced by the `processAttachments` call
inside `storeEmailInDatabase`. -/
def storedRows (offload : AttachmentDescriptor → Option DriveFile)
    (now : Nat) (email : EmailInput) (userId : String) (db : DB) : List AttachmentRow :=
  (processAttachments offload email.body.attachments
    (newRowOf now email userId db).id (dbAfterInsert now email userId db)).1

/-- The store after the `processAttachments` call inside
`storeEmailInDatabase`. -/
def dbAfterAttach (offload : AttachmentDescriptor → Option DriveFile)
    (now : Nat) (email : EmailInput) (userId : String) (db : DB) : DB :=
  (processAttachments offload email.body.attachments
    (newRowOf now email userId db).id (dbAfterInsert now email userId db)).2

/-- The attachment-link second write of `storeEmailInDatabase`
(`prisma.email.update` on the created row's id), which touches no field
other than `attachmentLinks`. -/
def linkUpdate (rowId : Nat) (links : List String) (r : EmailRow) : EmailRow :=
  if r.id = rowId then { r with attachmentLinks := links } else r

/-- `storeEmailInDatabase` (API route variant): look up by provider message
id and return the existing row untouched when found; otherwise create the
row with defaulted fields and an empty `attachmentLinks` array, offload the
attachments, and when at least one succeeded update the row's
`attachmentLinks` in a second write.  The returned record is the row as
created (the JavaScript function returns the object from `create`). -/
def storeEmailInDatabase (offload : AttachmentDescriptor → Option DriveFile)
    (now : Nat) (email : EmailInput) (userId : String) (db : DB) : DB × EmailRow :=
  match db.emails.find? (fun r => r.messageId == email.id) with
  | some existing => (db, existing)
  | none =>
    if email.body.attachments.isEmpty then
      (dbAfterInsert now email userId db, newRowOf now email userId db)
    else if (storedRows offload now email userId db).isEmpty then
      (dbAfterAttach offload now email userId db, newRowOf now email userId db)
    else
      ({ dbAfterAttach offload now email userId db with
          emails := (dbAfterAttach offload now email userId db).emails.map
            (linkUpdate (newRowOf now email userId db).id
              ((storedRows offload now email userId db).map (fun a => a.driveLink))) },
        newRowOf now email userId db)

/-- `dateToUnixTimestamp`: milliseconds since epoch to whole seconds. -/
def dateToUnixTimestamp (tMillis : Nat) : Nat := tMillis / 1000

/-- Seven days in milliseconds (the `setDate(getDate() - 7)` default
window). -/
def oneWeekMillis : Nat := 7 * 24 * 60 * 60 * 1000

/-- The part of the `User` row that the checkpoint tracker reads. -/
structure UserRow where
  lastEmailSync : Option Nat
  deriving DecidableEq, Repr

/-- `getLastSyncTimestamp`: the stored checkpoint in seconds when the user
exists and has one; one week before now when the user is missing, has never
synced, or the read itself failed (the `catch` branch). -/
def getLastSyncTimestamp (lookup : Except String (Option UserRow))
    (nowMillis : Nat) : Nat :=
  match lookup with
  | Except.error _ => dateToUnixTimestamp (nowMillis - oneWeekMillis)
  | Except.ok (some ur) =>
    match ur.lastEmailSync with
    | some t => dateToUnixTimestamp t
    | none => dateToUnixTimestamp (nowMillis - oneWeekMillis)
  | Except.ok none => dateToUnixTimestamp (nowMillis - oneWeekMillis)

/-- The sync window the API route builds before listing. -/
structure RouteQuery where
  afterBound : Option Nat
  fetchAllEmails : Bool
  deriving DecidableEq, Repr

/-- The checkpoint-dependent query construction of the API route
`fetchEmails`: an existing checkpoint becomes an `after:` lower bound in
seconds; a missing user or missing checkpoint switches to fetching all
inbox mail with no time bound at all. -/
def routeSyncWindow (user : Option UserRow) : RouteQuery :=
  match user with
  | some ur =>
    match ur.lastEmailSync with
    | some t => ⟨some (dateToUnixTimestamp t), false⟩
    | none => ⟨none, true⟩
  | none => ⟨none, true⟩

/-- A `(id, threadId)` pair returned by `users.messages.list`. -/
structure MessageRef where
  id : String
  threadId : String
  deriving DecidableEq, Repr

/-- The `do/while` pagination loop of `fetchEmails`.  The provider is the
list of pages it would serve in order; a response carries a
`nextPageToken` exactly when further pages remain.  Each iteration appends
the page, breaks when the accumulated count has reached `maxEmails`, and
otherwise continues while a token is present.  Returns the accumulated
refs and the number of page requests issued. -/
def fetchEmailsLoop (maxEmails : Nat) :
    List (List MessageRef) → List MessageRef → List MessageRef × Nat
  | [], acc => (acc, 0)
  | page :: rest, acc =>
    let acc2 := acc ++ page
    if maxEmails ≤ acc2.length then (acc2, 1)
    else
      match rest with
      | [] => (acc2, 1)
      | _ :: _ =>
        let r := fetchEmailsLoop maxEmails rest acc2
        (r.1, r.2 + 1)

/-- The fields of the Google `Account` row that `processEmails` inspects. -/
structure AccountRow where
  access_token : Option String
  scope : Option String
  deriving DecidableEq, Repr

def gmailReadonlyScope : String := "https://www.googleapis.com/auth/gmail.readonly"

def gmailModifyScope : String := "https://www.googleapis.com/auth/gmail.modify"

/-- Whether `sub` occurs contiguously inside `l`. -/
def charsInclude (sub : List Char) : List Char → Bool
  | [] => sub.isEmpty
  | c :: rest => sub.isPrefixOf (c :: rest) || charsInclude sub rest

/-- `string.includes(substring)`. -/
def strIncludes (s sub : String) : Bool :=
  charsInclude sub.toList s.toList

/-- `requiredScopes.some(scope => account.scope && account.scope.includes(scope))`. -/
def hasRequiredScopes (scope : Option String) : Bool :=
  [gmailReadonlyScope, gmailModifyScope].any
    (fun sc =>
      match scope with
      | some s => strIncludes s sc
      | none => false)

/-- The run summary returned by `processEmails`. -/
structure RunOutcome where
  success : Bool
  processedCount : Nat
  totalCount : Nat
  deriving DecidableEq, Repr

/-- The orchestration skeleton of `processEmails` in the attachment-handling
script.  `user` is the result of the user lookup (its google accounts);
`fetchRes` the outcome of the listing/fetching phase (`fetchEmails` throwing
is a terminal error); `perMessageOk` tells whether the per-message
parse/decode/store block succeeds for a message (its failures are caught
and only counted); `updateNowMillis` is the wall-clock reading taken inside
`updateLastSyncTimestamp`, which runs unconditionally after the loop.
Returns the run summary and the resulting checkpoint; every terminal
failure leaves the incoming `checkpoint` untouched. -/
def processEmails (user : Option (List AccountRow))
    (fetchRes : Except String (List GmailMessage))
    (perMessageOk : GmailMessage → Bool)
    (updateNowMillis : Nat) (checkpoint : Option Nat) :
    RunOutcome × Option Nat :=
  match user with
  | none => (⟨false, 0, 0⟩, checkpoint)
  | some accounts =>
    match accounts.head? with
    | none => (⟨false, 0, 0⟩, checkpoint)
    | some account =>
      if !jsTruthyStr account.access_token then (⟨false, 0, 0⟩, checkpoint)
      else if !hasRequiredScopes account.scope then (⟨false, 0, 0⟩, checkpoint)
      else
        match fetchRes with
        | Except.error _ => (⟨false, 0, 0⟩, checkpoint)
        | Except.ok msgs =>
          (⟨true, (msgs.filter perMessageOk).length, msgs.length⟩, some updateNowMillis)

/-! ## Part-tree traversal lemmas -/

mutual

/-- Preorder listing of a part and all of its descendants. -/
def collectPart : MsgPart → List MsgPart
  | MsgPart.mk mt fn b pid children =>
    MsgPart.mk mt fn b pid children :: collectParts children

/-- Preorder listing of all parts reachable from a parts array. -/
def collectParts : List MsgPart → List MsgPart
  | [] => []
  | p :: rest => collectPart p ++ collectParts rest

end

theorem stepPart_attachments (decode : String → String) (r : BodyResult) (p : MsgPart) :
    (stepPart decode r p).attachments
      = r.attachments ++ (if isAttachmentNode p then [descriptorOf p] else []) := by
  cases h1 : isTextPlainNode p <;> cases h2 : isTextHtmlNode p <;>
    cases h3 : jsTruthyStr p.filename <;>
      simp [stepPart, isAttachmentNode, h1, h2, h3]

theorem stepPart_text (decode : String → String) (r : BodyResult) (p : MsgPart) :
    (stepPart decode r p).text.isSome = (r.text.isSome || isTextPlainNode p) := by
  cases h1 : isTextPlainNode p <;> cases h2 : isTextHtmlNode p <;>
    cases h3 : jsTruthyStr p.filename <;>
      simp [stepPart, h1, h2, h3]

mutual

theorem processPart_attachments (decode : String → String) (r : BodyResult) (p : MsgPart) :
    (processPart decode r p).attachments
      = r.attachments ++ ((collectPart p).filter isAttachmentNode).map descriptorOf := by
  cases p with
  | mk mt fn b pid children =>
    rw [processPart, processParts_attachments decode _ children, stepPart_attachments,
      collectPart]
    by_cases h : isAttachmentNode (MsgPart.mk mt fn b pid children) <;>
      simp [h, List.filter_cons, List.append_assoc]

theorem processParts_attachments (decode : String → String) (r : BodyResult)
    (ps : List MsgPart) :
    (processParts decode r ps).attachments
      = r.attachments ++ ((collectParts ps).filter isAttachmentNode).map descriptorOf := by
  match ps with
  | [] => simp [processParts, collectParts]
  | p :: rest =>
    rw [processParts, processParts_attachments decode _ rest, processPart_attachments,
      collectParts]
    simp [List.filter_append, List.append_assoc]

end

mutual

theorem processPart_text (decode : String → String) (r : BodyResult) (p : MsgPart) :
    (processPart decode r p).text.isSome
      = (r.text.isSome || (collectPart p).any isTextPlainNode) := by
  cases p with
  | mk mt fn b pid children =>
    rw [processPart, processParts_text decode _ children, stepPart_text, collectPart]
    simp [Bool.or_assoc]

theorem processParts_text (decode : String → String) (r : BodyResult) (ps : List MsgPart) :
    (processParts decode r ps).text.isSome
      = (r.text.isSome || (collectParts ps).any isTextPlainNode) := by
  match ps with
  | [] => simp [processParts, collectParts]
  | p :: rest =>
    rw [processParts, processParts_text decode _ rest, processPart_text, collectParts]
    simp [Bool.or_assoc]

end

/-! ## Persistence-layer lemmas -/

theorem attachmentStep_emails (offload : AttachmentDescriptor → Option DriveFile)
    (eid : Nat) (acc : List AttachmentRow × DB) (a : AttachmentDescriptor) :
    (attachmentStep offload eid acc a).2.emails = acc.2.emails := by
  unfold attachmentStep
  split
  · rfl
  · cases offload a <;> rfl

theorem attachmentStep_nextId (offload : AttachmentDescriptor → Option DriveFile)
    (eid : Nat) (acc : List AttachmentRow × DB) (a : AttachmentDescriptor) :
    (attachmentStep offload eid acc a).2.nextId = acc.2.nextId := by
  unfold attachmentStep
  split
  · rfl
  · cases offload a <;> rfl

theorem foldl_attachmentStep_emails (offload : AttachmentDescriptor → Option DriveFile)
    (eid : Nat) (atts : List AttachmentDescriptor) (acc : List AttachmentRow × DB) :
    (atts.foldl (attachmentStep offload eid) acc).2.emails = acc.2.emails := by
  induction atts generalizing acc with
  | nil => rfl
  | cons a rest ih =>
    rw [List.foldl_cons, ih, attachmentStep_emails]

theorem processAttachments_emails (offload : AttachmentDescriptor → Option DriveFile)
    (atts : List AttachmentDescriptor) (eid : Nat) (db : DB) :
    (processAttachments offload atts eid db).2.emails = db.emails := by
  unfold processAttachments
  exact foldl_attachmentStep_emails offload eid atts ([], db)

theorem linkUpdate_fields (rowId : Nat) (links : List String) (r : EmailRow) :
    (linkUpdate rowId links r).messageId = r.messageId
      ∧ (linkUpdate rowId links r).isRead = r.isRead
      ∧ (linkUpdate rowId links r).labels = r.labels
      ∧ (linkUpdate rowId links r).receivedAt = r.receivedAt
      ∧ (linkUpdate rowId links r).recipients = r.recipients
      ∧ (linkUpdate rowId links r).ccRecipients = r.ccRecipients := by
  unfold linkUpdate
  split <;> exact ⟨rfl, rfl, rfl, rfl, rfl, rfl⟩

/-- When the lookup by provider message id succeeds, `storeEmailInDatabase`
returns the store untouched together with the found row. -/
theorem store_existing (offload : AttachmentDescriptor → Option DriveFile)
    (now : Nat) (email : EmailInput) (userId : String) (db : DB) (x : EmailRow)
    (h : db.emails.find? (fun r => r.messageId == email.id) = some x) :
    storeEmailInDatabase offload now email userId db = (db, x) := by
  unfold storeEmailInDatabase
  rw [h]

/-- Shape of a fresh insert: the resulting `Email` table is the old one plus
the freshly created row, up to an update function that can only change
`attachmentLinks`; the returned record is the created row. -/
theorem store_fresh_shape (offload : AttachmentDescriptor → Option DriveFile)
    (now : Nat) (email : EmailInput) (userId : String) (db : DB)
    (hnone : db.emails.find? (fun r => r.messageId == email.id) = none) :
    ∃ g : EmailRow → EmailRow,
      (∀ r, (g r).messageId = r.messageId ∧ (g r).isRead = r.isRead
        ∧ (g r).labels = r.labels ∧ (g r).receivedAt = r.receivedAt
        ∧ (g r).recipients = r.recipients ∧ (g r).ccRecipients = r.ccRecipients)
      ∧ (storeEmailInDatabase offload now email userId db).1.emails
          = (db.emails ++ [newRowOf now email userId db]).map g
      ∧ (storeEmailInDatabase offload now email userId db).2
          = newRowOf now email userId db := by
  have hAtt : (dbAfterAttach offload now email userId db).emails
      = db.emails ++ [newRowOf now email userId db] := by
    unfold dbAfterAttach
    rw [processAttachments_emails]
    rfl
  unfold storeEmailInDatabase
  rw [hnone]
  by_cases hA : email.body.attachments.isEmpty
  · exact ⟨id, fun r => ⟨rfl, rfl, rfl, rfl, rfl, rfl⟩,
      by simp [hA, dbAfterInsert], by simp [hA]⟩
  · by_cases hS : (storedRows offload now email userId db).isEmpty
    · refine ⟨id, fun r => ⟨rfl, rfl, rfl, rfl, rfl, rfl⟩, ?_, by simp [hA, hS]⟩
      simp only [hA, hS, Bool.false_eq_true, if_false, if_true, List.map_id]
      exact hAtt
    · refine ⟨linkUpdate (newRowOf now email userId db).id
        ((storedRows offload now email userId db).map (fun a => a.driveLink)),
        fun r => linkUpdate_fields _ _ r, ?_, by simp [hA, hS]⟩
      simp only [hA, hS, Bool.false_eq_true, if_false]
      rw [hAtt]

/-! ## Nesting depth of a part tree -/

mutual

/-- Nesting depth of a part: one more than the depth of its parts array. -/
def partDepth : MsgPart → Nat
  | MsgPart.mk _ _ _ _ children => 1 + partsDepth children

/-- Nesting depth of a parts array: the maximum depth of its members. -/
def partsDepth : List MsgPart → Nat
  | [] => 0
  | p :: rest => max (partDepth p) (partsDepth rest)

end

/-! ## Sample data used by witnesses and counterexamples -/

def emptyDB : DB := ⟨[], [], 0⟩

def sampleBody : BodyResult := ⟨some "hello", none, []⟩

def sampleEmail : EmailInput :=
  ⟨"mid-1", "tid-1", "Quarterly tender", "alice@example.com", ["bob@example.com"], [],
    JSDate.valid 1700000000000, "snippet", sampleBody, ["INBOX"]⟩

/-- A `text/plain` leaf with inline base64 data, three levels down. -/
def leafTextPart : MsgPart :=
  MsgPart.mk "text/plain" none ⟨some "aGVsbG8=", some 5, none⟩ (some "0.0.0") []

/-- A filename-bearing leaf whose body holds an attachment id, no inline
data, three levels down. -/
def leafFilePart : MsgPart :=
  MsgPart.mk "application/pdf" (some "bid.pdf") ⟨none, some 999, some "att-1"⟩
    (some "0.0.1") []

def level2Part : MsgPart :=
  MsgPart.mk "multipart/alternative" none ⟨none, none, none⟩ (some "0.0")
    [leafTextPart, leafFilePart]

def level1Part : MsgPart :=
  MsgPart.mk "multipart/mixed" none ⟨none, none, none⟩ (some "0") [level2Part]

def deepPayload : MsgPart :=
  MsgPart.mk "multipart/mixed" none ⟨none, none, none⟩ none [level1Part]

/-- A message whose multipart structure is nested three levels deep and
contains one `text/plain` leaf with inline data and one filename-bearing
leaf. -/
def deepMessage : GmailMessage :=
  ⟨"m-deep", "t-deep", some "snippet", ["INBOX"], some deepPayload, []⟩

/-! ## C2: part-tree extraction at nesting depth 3 -/

/-- C2 (counterexample): on a message nested three levels deep with a
`text/plain` leaf carrying inline data and one filename-bearing leaf, the
`decodeEmailBody` of `src/scripts/fetchGmailEmails.js` — one of the two
extractors the claim covers — returns a null `bodyText` (it never descends
past the second level) and produces no attachment descriptors at all, so
the claimed non-null `bodyText` and single `AttachmentDescriptor` both
fail. -/
theorem legacy_extractor_misses_depth3 :
    decodeEmailBodyLegacy (fun s => s) deepMessage = ⟨none, none⟩
    ∧ partsDepth deepPayload.children = 3
    ∧ (collectParts deepPayload.children).any isTextPlainNode = true
    ∧ (collectParts deepPayload.children).countP (fun p => jsTruthyStr p.filename) = 1 :=
  ⟨rfl, rfl, rfl, rfl⟩

/-- C2 (amended): for the recursive attachment-aware `decodeEmailBody`
shared by the sync script and the API route, every multipart message whose
part forest is nested at least 3 levels deep, contains a `text/plain` leaf
with inline data, and contains exactly one filename-bearing part — one
whose body carries no inline text data, the shape Gmail gives real
attachments — yields a non-null `bodyText` and exactly one
`AttachmentDescriptor`. -/
theorem decodeEmailBody_depth3 (decode : String → String) (m : GmailMessage) (pl : MsgPart)
    (hpl : m.payload = some pl)
    (hne : pl.children ≠ [])
    (hdepth : 3 ≤ partsDepth pl.children)
    (htext : (collectParts pl.children).any isTextPlainNode = true)
    (hone : (collectParts pl.children).countP (fun p => jsTruthyStr p.filename) = 1)
    (hplain : ∀ p ∈ collectParts pl.children, jsTruthyStr p.filename = true →
      isTextPlainNode p = false ∧ isTextHtmlNode p = false) :
    (decodeEmailBody decode m).text.isSome = true
    ∧ (decodeEmailBody decode m).attachments.length = 1 := by
  have hie : pl.children.isEmpty = false := by
    cases hc : pl.children with
    | nil => exact absurd hc hne
    | cons a t => rfl
  unfold decodeEmailBody
  rw [hpl]
  simp only [hie, Bool.false_eq_true, if_false]
  constructor
  · rw [processParts_text]
    simp [htext]
  · rw [processParts_attachments]
    simp only [emptyBody, List.nil_append, List.length_map]
    rw [← List.countP_eq_length_filter]
    rw [List.countP_congr ?_]
    · exact hone
    · intro p hp
      cases hf : jsTruthyStr p.filename with
      | false => simp [isAttachmentNode, hf]
      | true =>
        obtain ⟨h1, h2⟩ := hplain p hp hf
        simp [isAttachmentNode, hf, h1, h2]

/-- C2 (witness): the amended theorem applied to the concrete depth-3
message. -/
theorem decodeEmailBody_depth3_witness :
    (decodeEmailBody (fun s => s) deepMessage).text.isSome = true
    ∧ (decodeEmailBody (fun s => s) deepMessage).attachments.length = 1 :=
  decodeEmailBody_depth3 (fun s => s) deepMessage deepPayload rfl
    (by simp [deepPayload, MsgPart.children]) (by decide)
    rfl rfl (by decide)

/-! ## C6: filename-bearing parts and attachment classification -/

/-- A single-part (non-multipart) message whose lone part carries a
filename and an attachment id. -/
def singlePartAttachMessage : GmailMessage :=
  ⟨"m-single", "t-single", some "s", ["INBOX"],
    some (MsgPart.mk "application/pdf" (some "quote.pdf") ⟨none, some 7, some "att-9"⟩
      none []), []⟩

/-- A `text/plain` part that carries both a filename and inline data. -/
def inlineNamedTextPart : MsgPart :=
  MsgPart.mk "text/plain" (some "notes.txt") ⟨some "ZGF0YQ==", some 4, some "att-7"⟩
    (some "0.0") []

def inlineNamedMessage : GmailMessage :=
  ⟨"m-inline", "t-inline", some "s", ["INBOX"],
    some (MsgPart.mk "multipart/mixed" none ⟨none, none, none⟩ none
      [inlineNamedTextPart]), []⟩

/-- C6 (counterexample): two filename-bearing parts that are never recorded
as attachments.  The lone part of a single-part message carries the
filename `quote.pdf`, yet the single-part branch of `decodeEmailBody` can
only produce inline text or HTML, so no descriptor is recorded; and a
`text/plain` part with inline data and the filename `notes.txt` is
captured by the text branch of the `if` chain and inlined instead of being
recorded. -/
theorem filename_part_not_always_attachment :
    (decodeEmailBody (fun s => s) singlePartAttachMessage).attachments = []
    ∧ jsTruthyStr ((MsgPart.mk "application/pdf" (some "quote.pdf")
        ⟨none, some 7, some "att-9"⟩ none []).filename) = true
    ∧ (decodeEmailBody (fun s => s) inlineNamedMessage).attachments = []
    ∧ jsTruthyStr inlineNamedTextPart.filename = true
    ∧ (decodeEmailBody (fun s => s) inlineNamedMessage).text = some "ZGF0YQ==" :=
  ⟨rfl, rfl, rfl, rfl, rfl⟩

/-- C6 (amended): inside a multipart message, a part with a non-empty
filename is recorded as an `AttachmentDescriptor` exactly as long as it is
not an inline `text/plain` or `text/html` part (those are inlined by the
earlier branches); the lone part of a single-part message is never
recorded as an attachment, whatever its filename. -/
theorem attachment_classification (decode : String → String) (m : GmailMessage)
    (pl : MsgPart) (hpl : m.payload = some pl) :
    (pl.children ≠ [] →
      ∀ p ∈ collectParts pl.children, jsTruthyStr p.filename = true →
        isTextPlainNode p = false → isTextHtmlNode p = false →
        descriptorOf p ∈ (decodeEmailBody decode m).attachments)
    ∧ (pl.children = [] → (decodeEmailBody decode m).attachments = []) := by
  constructor
  · intro hne p hp hf h1 h2
    have hie : pl.children.isEmpty = false := by
      cases hc : pl.children with
      | nil => exact absurd hc hne
      | cons a t => rfl
    unfold decodeEmailBody
    rw [hpl]
    simp only [hie, Bool.false_eq_true, if_false]
    rw [processParts_attachments]
    simp only [emptyBody, List.nil_append]
    refine List.mem_map_of_mem descriptorOf (List.mem_filter.mpr ⟨hp, ?_⟩)
    simp [isAttachmentNode, hf, h1, h2]
  · intro hnil
    have hie : pl.children.isEmpty = true := by rw [hnil]; rfl
    unfold decodeEmailBody
    rw [hpl]
    simp only [hie, if_true]
    split
    · split
      · rfl
      · split
        · rfl
        · rfl
    · rfl

/-- C6 (witness): in the depth-3 multipart message, the filename-bearing
leaf is recorded as an attachment descriptor. -/
theorem attachment_classification_witness :
    descriptorOf leafFilePart ∈ (decodeEmailBody (fun s => s) deepMessage).attachments :=
  (attachment_classification (fun s => s) deepMessage deepPayload rfl).1
    (by simp [deepPayload, MsgPart.children]) leafFilePart
    (by
      rw [show collectParts deepPayload.children
        = [level1Part, level2Part, leafTextPart, leafFilePart] from rfl]
      exact List.mem_cons_of_mem _ (List.mem_cons_of_mem _
        (List.mem_cons_of_mem _ (List.mem_singleton_self _))))
    rfl rfl rfl

/-! ## C3: CC recipients versus primary recipients -/

theorem stepHeaderRoute_recipients_congr (dateParse : String → Option Nat)
    (md md' : HeaderMetaRoute) (h : EmailHeader)
    (hmd : md.recipients = md'.recipients) :
    (stepHeaderRoute dateParse md h).recipients
      = (stepHeaderRoute dateParse md' h).recipients := by
  unfold stepHeaderRoute
  split_ifs <;> simp [hmd]

theorem foldl_route_recipients_congr (dateParse : String → Option Nat)
    (headers : List EmailHeader) :
    ∀ md md' : HeaderMetaRoute, md.recipients = md'.recipients →
      (headers.foldl (stepHeaderRoute dateParse) md).recipients
        = (headers.foldl (stepHeaderRoute dateParse) md').recipients := by
  induction headers with
  | nil => intro md md' h; exact h
  | cons h t ih =>
    intro md md' hmd
    rw [List.foldl_cons, List.foldl_cons]
    exact ih _ _ (stepHeaderRoute_recipients_congr dateParse md md' h hmd)

theorem stepHeaderRoute_cc_recipients (dateParse : String → Option Nat)
    (md : HeaderMetaRoute) (h : EmailHeader) (hcc : strToLower h.name = "cc") :
    (stepHeaderRoute dateParse md h).recipients = md.recipients := by
  unfold stepHeaderRoute
  rw [hcc]
  split_ifs <;> simp_all

theorem route_recipients_ignore_cc (dateParse : String → Option Nat)
    (headers : List EmailHeader) :
    ∀ md : HeaderMetaRoute,
      (headers.foldl (stepHeaderRoute dateParse) md).recipients
        = ((headers.filter (fun h => !(strToLower h.name == "cc"))).foldl
            (stepHeaderRoute dateParse) md).recipients := by
  induction headers with
  | nil => intro md; rfl
  | cons h t ih =>
    intro md
    by_cases hcc : strToLower h.name = "cc"
    · rw [List.filter_cons]
      simp only [hcc, beq_self_eq_true, Bool.not_true, Bool.false_eq_true, if_false,
        List.foldl_cons]
      calc (t.foldl (stepHeaderRoute dateParse) (stepHeaderRoute dateParse md h)).recipients
          = (t.foldl (stepHeaderRoute dateParse) md).recipients :=
            foldl_route_recipients_congr dateParse t _ md
              (stepHeaderRoute_cc_recipients dateParse md h hcc)
        _ = ((t.filter (fun h => !(strToLower h.name == "cc"))).foldl
              (stepHeaderRoute dateParse) md).recipients := ih md
    · have hb : (strToLower h.name == "cc") = false := beq_eq_false_iff_ne.mpr hcc
      rw [List.filter_cons]
      simp only [hb, Bool.not_false, if_true, List.foldl_cons]
      exact ih (stepHeaderRoute dateParse md h)

/-- C3 (counterexample): the `parseEmailHeaders` of
`src/scripts/fetchGmailEmails.js` (shared with the script variants), given
a message carrying both `To` and `Cc` headers, appends the CC address to
the primary `recipients` list — there is no separate CC field in that
variant, so the stored row records the CC address among the primary
recipients. -/
theorem parseEmailHeaders_merges_cc :
    (parseEmailHeaders (fun _ => none)
      [⟨"To", "alice@example.com"⟩, ⟨"Cc", "bob@example.com"⟩]).recipients
      = ["alice@example.com", "bob@example.com"]
    ∧ "bob@example.com" ∈ (parseEmailHeaders (fun _ => none)
      [⟨"To", "alice@example.com"⟩, ⟨"Cc", "bob@example.com"⟩]).recipients := by
  refine ⟨by decide, ?_⟩
  rw [show (parseEmailHeaders (fun _ => none)
      [⟨"To", "alice@example.com"⟩, ⟨"Cc", "bob@example.com"⟩]).recipients
      = ["alice@example.com", "bob@example.com"] by decide]
  exact List.mem_cons_of_mem _ (List.mem_singleton_self _)

/-- C3 (amended): in the API route variant, CC recipients are tracked
separately from primary recipients: the parsed `recipients` list is
unaffected by `Cc` headers (removing them changes nothing), and the
persisted row keeps `recipients` and `ccRecipients` in distinct fields
exactly as extracted.  The script variants instead merge CC addresses into
the primary list. -/
theorem ccRecipients_kept_separate (dateParse : String → Option Nat)
    (headers : List EmailHeader)
    (offload : AttachmentDescriptor → Option DriveFile) (now : Nat)
    (email : EmailInput) (userId : String) (db : DB)
    (hnone : db.emails.find? (fun r => r.messageId == email.id) = none) :
    (parseEmailHeadersRoute dateParse headers).recipients
      = (parseEmailHeadersRoute dateParse
          (headers.filter (fun h => !(strToLower h.name == "cc")))).recipients
    ∧ (storeEmailInDatabase offload now email userId db).2.recipients = email.recipients
    ∧ (storeEmailInDatabase offload now email userId db).2.ccRecipients
        = email.ccRecipients
    ∧ ∃ r ∈ (storeEmailInDatabase offload now email userId db).1.emails,
        r.messageId = email.id ∧ r.recipients = email.recipients
          ∧ r.ccRecipients = email.ccRecipients := by
  obtain ⟨g, hg, hemails, hret⟩ := store_fresh_shape offload now email userId db hnone
  refine ⟨route_recipients_ignore_cc dateParse headers _, by rw [hret]; rfl,
    by rw [hret]; rfl, g (newRowOf now email userId db), ?_, ?_, ?_, ?_⟩
  · rw [hemails, List.map_append]
    exact List.mem_append_right _ (List.mem_map_of_mem g (List.mem_singleton_self _))
  · rw [(hg _).1]; rfl
  · rw [(hg _).2.2.2.2.1]; rfl
  · rw [(hg _).2.2.2.2.2]; rfl

/-- C3 (witness): the amended theorem at a concrete To/Cc header list and a
concrete fresh store. -/
theorem ccRecipients_kept_separate_witness :
    (parseEmailHeadersRoute (fun _ => none)
      [⟨"To", "alice@example.com"⟩, ⟨"Cc", "bob@example.com"⟩]).recipients
      = (parseEmailHeadersRoute (fun _ => none)
          ([⟨"To", "alice@example.com"⟩, ⟨"Cc", "bob@example.com"⟩].filter
            (fun h => !(strToLower h.name == "cc")))).recipients
    ∧ (storeEmailInDatabase (fun _ => none) 1700000000000 sampleEmail "user-1"
        emptyDB).2.recipients = sampleEmail.recipients
    ∧ (storeEmailInDatabase (fun _ => none) 1700000000000 sampleEmail "user-1"
        emptyDB).2.ccRecipients = sampleEmail.ccRecipients
    ∧ ∃ r ∈ (storeEmailInDatabase (fun _ => none) 1700000000000 sampleEmail "user-1"
        emptyDB).1.emails,
        r.messageId = sampleEmail.id ∧ r.recipients = sampleEmail.recipients
          ∧ r.ccRecipients = sampleEmail.ccRecipients :=
  ccRecipients_kept_separate (fun _ => none)
    [⟨"To", "alice@example.com"⟩, ⟨"Cc", "bob@example.com"⟩]
    (fun _ => none) 1700000000000 sampleEmail "user-1" emptyDB rfl

/-! ## C1: idempotent persistence -/

/-- C1: starting from a store with no row for the provider message id,
persisting a message and then persisting it again yields exactly one
`Email` row for that id; the second call leaves the store untouched and
returns the row already present. -/
theorem storeEmail_idempotent (offload : AttachmentDescriptor → Option DriveFile)
    (now1 now2 : Nat) (email : EmailInput) (userId : String) (db0 : DB)
    (hfresh : db0.emails.countP (fun r => r.messageId == email.id) = 0) :
    (storeEmailInDatabase offload now2 email userId
        (storeEmailInDatabase offload now1 email userId db0).1).1
      = (storeEmailInDatabase offload now1 email userId db0).1
    ∧ (storeEmailInDatabase offload now1 email userId db0).1.emails.countP
        (fun r => r.messageId == email.id) = 1
    ∧ (storeEmailInDatabase offload now2 email userId
        (storeEmailInDatabase offload now1 email userId db0).1).2
        ∈ (storeEmailInDatabase offload now1 email userId db0).1.emails
    ∧ (storeEmailInDatabase offload now2 email userId
        (storeEmailInDatabase offload now1 email userId db0).1).2.messageId
      = email.id := by
  have hnone : db0.emails.find? (fun r => r.messageId == email.id) = none := by
    rw [List.find?_eq_none]
    intro x hx
    exact List.countP_eq_zero.mp hfresh x hx
  obtain ⟨g, hg, hemails, hret⟩ := store_fresh_shape offload now1 email userId db0 hnone
  have hmidg : ∀ r : EmailRow, ((g r).messageId == email.id) = (r.messageId == email.id) := by
    intro r
    rw [(hg r).1]
  have hrowmid : (newRowOf now1 email userId db0).messageId = email.id := rfl
  have hfind1 : (storeEmailInDatabase offload now1 email userId db0).1.emails.find?
      (fun r => r.messageId == email.id)
      = some (g (newRowOf now1 email userId db0)) := by
    rw [hemails, List.map_append, List.find?_append]
    have h1 : (db0.emails.map g).find? (fun r => r.messageId == email.id) = none := by
      rw [List.find?_eq_none]
      intro x hx
      obtain ⟨y, hy, rfl⟩ := List.mem_map.mp hx
      simp only [hmidg y]
      exact List.countP_eq_zero.mp hfresh y hy
    rw [h1]
    simp [List.find?, hmidg, hrowmid]
  have hsecond := store_existing offload now2 email userId
    (storeEmailInDatabase offload now1 email userId db0).1
    (g (newRowOf now1 email userId db0)) hfind1
  refine ⟨by rw [hsecond], ?_, ?_, ?_⟩
  · rw [hemails, List.map_append, List.countP_append, List.countP_map, List.countP_map]
    have e0 : db0.emails.countP ((fun r => r.messageId == email.id) ∘ g) = 0 := by
      rw [List.countP_congr (fun x _ => ?_)]
      · exact hfresh
      · simp only [Function.comp, hmidg x]
    have e1 : List.countP ((fun r => r.messageId == email.id) ∘ g)
        [newRowOf now1 email userId db0] = 1 := by
      simp [List.countP_cons, Function.comp, hmidg, hrowmid]
    rw [e0, e1]
  · rw [hsecond]
    exact List.mem_of_find?_eq_some hfind1
  · rw [hsecond]
    have := List.find?_some hfind1
    simpa using this

/-- C1 (witness): the idempotence theorem at a concrete message and the
empty store. -/
theorem storeEmail_idempotent_witness :
    emptyDB.emails.countP (fun r => r.messageId == sampleEmail.id) = 0
    ∧ ((storeEmailInDatabase (fun _ => none) 2000 sampleEmail "user-1"
        (storeEmailInDatabase (fun _ => none) 1000 sampleEmail "user-1" emptyDB).1).1
      = (storeEmailInDatabase (fun _ => none) 1000 sampleEmail "user-1" emptyDB).1
    ∧ (storeEmailInDatabase (fun _ => none) 1000 sampleEmail "user-1"
        emptyDB).1.emails.countP (fun r => r.messageId == sampleEmail.id) = 1
    ∧ (storeEmailInDatabase (fun _ => none) 2000 sampleEmail "user-1"
        (storeEmailInDatabase (fun _ => none) 1000 sampleEmail "user-1" emptyDB).1).2
        ∈ (storeEmailInDatabase (fun _ => none) 1000 sampleEmail "user-1" emptyDB).1.emails
    ∧ (storeEmailInDatabase (fun _ => none) 2000 sampleEmail "user-1"
        (storeEmailInDatabase (fun _ => none) 1000 sampleEmail "user-1"
          emptyDB).1).2.messageId = sampleEmail.id) :=
  ⟨rfl, storeEmail_idempotent (fun _ => none) 1000 2000 sampleEmail "user-1" emptyDB rfl⟩

/-! ## C7: per-attachment failure isolation -/

/-- Result of `storeEmailInDatabase` on the fresh path when at least one
attachment was stored: the created row plus the link update. -/
theorem store_fresh_linked (offload : AttachmentDescriptor → Option DriveFile)
    (now : Nat) (email : EmailInput) (userId : String) (db : DB)
    (hnone : db.emails.find? (fun r => r.messageId == email.id) = none)
    (hA : email.body.attachments.isEmpty = false)
    (hS : (storedRows offload now email userId db).isEmpty = false) :
    storeEmailInDatabase offload now email userId db
      = ({ dbAfterAttach offload now email userId db with
          emails := (dbAfterAttach offload now email userId db).emails.map
            (linkUpdate (newRowOf now email userId db).id
              ((storedRows offload now email userId db).map (fun a => a.driveLink))) },
        newRowOf now email userId db) := by
  unfold storeEmailInDatabase
  rw [hnone]
  simp [hA, hS]

/-- C7: for a fresh message with two attachment descriptors where the
offload of the second fails, the message row is still persisted (the store
call returns the created row), the attachments table gains exactly the one
successfully offloaded row, and the message ends up linked to exactly that
one stored attachment. -/
theorem attachment_failure_isolated (offload : AttachmentDescriptor → Option DriveFile)
    (now : Nat) (email : EmailInput) (userId : String) (db : DB)
    (a1 a2 : AttachmentDescriptor) (df : DriveFile)
    (hnone : db.emails.find? (fun r => r.messageId == email.id) = none)
    (hatts : email.body.attachments = [a1, a2])
    (ht1 : jsTruthyStr a1.attachmentId = true)
    (ht2 : jsTruthyStr a2.attachmentId = true)
    (ho1 : offload a1 = some df)
    (ho2 : offload a2 = none) :
    (storeEmailInDatabase offload now email userId db).2 = newRowOf now email userId db
    ∧ (storeEmailInDatabase offload now email userId db).1.attachments
      = db.attachments ++ [⟨(newRowOf now email userId db).id, a1.filename,
          a1.mimeType, a1.size, df.id, df.link⟩]
    ∧ ∃ r ∈ (storeEmailInDatabase offload now email userId db).1.emails,
        r.messageId = email.id ∧ r.attachmentLinks = [df.link] := by
  have hrows : storedRows offload now email userId db
      = [⟨(newRowOf now email userId db).id, a1.filename, a1.mimeType, a1.size,
          df.id, df.link⟩] := by
    unfold storedRows processAttachments
    rw [hatts]
    simp [attachmentStep, ht1, ht2, ho1, ho2]
  have hattach : (dbAfterAttach offload now email userId db).attachments
      = db.attachments ++ [⟨(newRowOf now email userId db).id, a1.filename,
          a1.mimeType, a1.size, df.id, df.link⟩] := by
    unfold dbAfterAttach processAttachments
    rw [hatts]
    simp [attachmentStep, ht1, ht2, ho1, ho2, dbAfterInsert]
  have hemails : (dbAfterAttach offload now email userId db).emails
      = db.emails ++ [newRowOf now email userId db] := by
    unfold dbAfterAttach
    rw [processAttachments_emails]
    rfl
  have hA : email.body.attachments.isEmpty = false := by rw [hatts]; rfl
  have hS : (storedRows offload now email userId db).isEmpty = false := by rw [hrows]; rfl
  have hres := store_fresh_linked offload now email userId db hnone hA hS
  refine ⟨by rw [hres], by rw [hres]; exact hattach, ?_⟩
  refine ⟨linkUpdate (newRowOf now email userId db).id
      ((storedRows offload now email userId db).map (fun a => a.driveLink))
      (newRowOf now email userId db), ?_, ?_, ?_⟩
  · rw [hres]
    simp only []
    rw [hemails]
    exact List.mem_map_of_mem _ (List.mem_append_right _ (List.mem_singleton_self _))
  · exact (linkUpdate_fields _ _ _).1
  · rw [hrows]
    simp [linkUpdate]

/-- C7 (witness): the isolation theorem at a concrete two-attachment
message whose second offload fails. -/
theorem attachment_failure_isolated_witness :
    ∃ r ∈ (storeEmailInDatabase
        (fun a => if a.attachmentId == some "att-1" then some ⟨"drive-1", "link-1"⟩ else none)
        1000
        { sampleEmail with body := ⟨some "hello", none,
            [⟨"bid.pdf", "application/pdf", 9, some "att-1", "0.0"⟩,
             ⟨"spec.pdf", "application/pdf", 11, some "att-2", "0.1"⟩]⟩ }
        "user-1" emptyDB).1.emails,
      r.messageId = sampleEmail.id ∧ r.attachmentLinks = ["link-1"] :=
  (attachment_failure_isolated
    (fun a => if a.attachmentId == some "att-1" then some ⟨"drive-1", "link-1"⟩ else none)
    1000
    { sampleEmail with body := ⟨some "hello", none,
        [⟨"bid.pdf", "application/pdf", 9, some "att-1", "0.0"⟩,
         ⟨"spec.pdf", "application/pdf", 11, some "att-2", "0.1"⟩]⟩ }
    "user-1" emptyDB
    ⟨"bid.pdf", "application/pdf", 9, some "att-1", "0.0"⟩
    ⟨"spec.pdf", "application/pdf", 11, some "att-2", "0.1"⟩
    ⟨"drive-1", "link-1"⟩ rfl rfl rfl rfl rfl rfl).2.2

/-! ## C10: created rows are unread -/

/-- C10: every `Email` row created by `storeEmailInDatabase` has `isRead`
set to `false`, and the provider labels — an `UNREAD` label included — are
stored verbatim in the `labels` column without influencing the read
flag. -/
theorem storeEmail_isRead_false (offload : AttachmentDescriptor → Option DriveFile)
    (now : Nat) (email : EmailInput) (userId : String) (db : DB)
    (hnone : db.emails.find? (fun r => r.messageId == email.id) = none) :
    (storeEmailInDatabase offload now email userId db).2.isRead = false
    ∧ (storeEmailInDatabase offload now email userId db).2.labels = email.labels
    ∧ ∃ r ∈ (storeEmailInDatabase offload now email userId db).1.emails,
        r.messageId = email.id ∧ r.isRead = false ∧ r.labels = email.labels := by
  obtain ⟨g, hg, hemails, hret⟩ := store_fresh_shape offload now email userId db hnone
  refine ⟨by rw [hret]; rfl, by rw [hret]; rfl,
    g (newRowOf now email userId db), ?_, ?_, ?_, ?_⟩
  · rw [hemails, List.map_append]
    exact List.mem_append_right _ (List.mem_map_of_mem g (List.mem_singleton_self _))
  · rw [(hg _).1]; rfl
  · rw [(hg _).2.1]; rfl
  · rw [(hg _).2.2.1]; rfl

/-- C10 (witness): a message carrying the provider label `UNREAD` is stored
with `isRead = false` and the label kept only in the label set. -/
theorem storeEmail_isRead_false_witness :
    (storeEmailInDatabase (fun _ => none) 1000
        { sampleEmail with labels := ["UNREAD", "INBOX"] } "user-1" emptyDB).2.isRead = false
    ∧ (storeEmailInDatabase (fun _ => none) 1000
        { sampleEmail with labels := ["UNREAD", "INBOX"] } "user-1" emptyDB).2.labels
      = ["UNREAD", "INBOX"]
    ∧ ∃ r ∈ (storeEmailInDatabase (fun _ => none) 1000
        { sampleEmail with labels := ["UNREAD", "INBOX"] } "user-1" emptyDB).1.emails,
        r.messageId = sampleEmail.id ∧ r.isRead = false ∧ r.labels = ["UNREAD", "INBOX"] :=
  storeEmail_isRead_false (fun _ => none) 1000
    { sampleEmail with labels := ["UNREAD", "INBOX"] } "user-1" emptyDB rfl

/-! ## C9: absent versus unparsable Date headers -/

/-- C9 (evidence): a `Date` header that the date parser rejects becomes an
Invalid Date in the extracted metadata, and because an Invalid Date is
truthy in JavaScript the `email.date || new Date()` fallback in
`storeEmailInDatabase` does not replace it — the row is built with the
invalid timestamp rather than the current time (the `DateTime` column then
rejects such a row).  Only a missing `Date` header (a `null` date) is
defaulted to the current time. -/
theorem receivedAt_keeps_invalid_date :
    (parseEmailHeaders (fun _ => none) [⟨"Date", "Banana 32nd 20XX"⟩]).date
      = JSDate.invalid
    ∧ (storeEmailInDatabase (fun _ => none) 1700000000000
        { sampleEmail with date := JSDate.invalid } "user-1" emptyDB).2.receivedAt
      = JSDate.invalid
    ∧ (storeEmailInDatabase (fun _ => none) 1700000000000
        { sampleEmail with date := JSDate.nullDate } "user-1" emptyDB).2.receivedAt
      = JSDate.valid 1700000000000 :=
  ⟨rfl, rfl, rfl⟩

/-! ## C8: checkpoint default window -/

/-- C8 (amended, script variant): `getLastSyncTimestamp` returns the
one-week-ago default both when the user is missing or has no stored
checkpoint and when the checkpoint read itself fails — the run is never
aborted by the read. -/
theorem getLastSyncTimestamp_default (lookup : Except String (Option UserRow))
    (nowMillis : Nat)
    (h : (∃ e, lookup = Except.error e) ∨ lookup = Except.ok none
      ∨ lookup = Except.ok (some ⟨none⟩)) :
    getLastSyncTimestamp lookup nowMillis
      = dateToUnixTimestamp (nowMillis - oneWeekMillis) := by
  rcases h with ⟨e, rfl⟩ | rfl | rfl <;> rfl

/-- C8 (witness): the default at a concrete clock for a user who has never
synced. -/
theorem getLastSyncTimestamp_default_witness :
    getLastSyncTimestamp (Except.ok (some ⟨none⟩)) 1700000000000
      = dateToUnixTimestamp (1700000000000 - oneWeekMillis) :=
  getLastSyncTimestamp_default (Except.ok (some ⟨none⟩)) 1700000000000
    (Or.inr (Or.inr rfl))

/-- C8 (counterexample): the API route does not consult the 7-day default
at all — for a principal with no stored checkpoint (or no user row) it
builds a query with no time lower bound and switches to fetching all inbox
history, so the first sync window is not `now − 7 days`. -/
theorem routeSyncWindow_unbounded_on_absent_checkpoint :
    routeSyncWindow (some ⟨none⟩) = ⟨none, true⟩
    ∧ routeSyncWindow none = ⟨none, true⟩ :=
  ⟨rfl, rfl⟩

/-! ## C5: checkpoint advance at end of run -/

def sampleAccount : AccountRow := ⟨some "token-abc", some gmailReadonlyScope⟩

def sampleMsg : GmailMessage := ⟨"m-1", "t-1", some "s", ["INBOX"], none, []⟩

/-- C5 (amended): a run that reaches the per-message processing phase
advances the checkpoint unconditionally — whatever `perMessageOk` says,
including runs where every message errors — and the stored value is the
wall-clock reading taken inside `updateLastSyncTimestamp` at the end of
the run; every terminal failure (user missing, no google account, missing
access token, missing scopes, listing/fetching aborted) leaves the
checkpoint unchanged. -/
theorem processEmails_checkpoint_advance (accounts : List AccountRow)
    (account : AccountRow) (msgs : List GmailMessage)
    (perMessageOk : GmailMessage → Bool) (updateNowMillis : Nat) (cp : Option Nat)
    (hacc : accounts.head? = some account)
    (htok : jsTruthyStr account.access_token = true)
    (hscope : hasRequiredScopes account.scope = true) :
    (processEmails (some accounts) (Except.ok msgs) perMessageOk updateNowMillis cp).2
      = some updateNowMillis
    ∧ (processEmails (some accounts) (Except.ok msgs) perMessageOk
        updateNowMillis cp).1.success = true
    ∧ (∀ fr ok t, (processEmails none fr ok t cp).2 = cp)
    ∧ (∀ ok t, (processEmails (some []) (Except.ok msgs) ok t cp).2 = cp)
    ∧ (∀ acc2 rest ok t, jsTruthyStr (AccountRow.access_token acc2) = false →
        (processEmails (some (acc2 :: rest)) (Except.ok msgs) ok t cp).2 = cp)
    ∧ (∀ acc2 rest ok t, jsTruthyStr (AccountRow.access_token acc2) = true →
        hasRequiredScopes acc2.scope = false →
        (processEmails (some (acc2 :: rest)) (Except.ok msgs) ok t cp).2 = cp)
    ∧ (∀ e ok t, (processEmails (some accounts) (Except.error e) ok t cp).2 = cp) := by
  cases accounts with
  | nil => cases hacc
  | cons a rest0 =>
    obtain rfl : a = account := by simpa using hacc
    refine ⟨?_, ?_, fun fr ok t => rfl, fun ok t => rfl, ?_, ?_, ?_⟩
    · simp [processEmails, htok, hscope]
    · simp [processEmails, htok, hscope]
    · intro acc2 rest ok t h
      simp [processEmails, h]
    · intro acc2 rest ok t h1 h2
      simp [processEmails, h1, h2]
    · intro e ok t
      simp [processEmails, htok, hscope]

/-- C5 (counterexample): a run begun at wall-clock 0 whose
`updateLastSyncTimestamp` executes at wall-clock 5000 — with every
message failing — advances the checkpoint to 5000, the end-of-run reading,
not the run-start time 0 the claim names. -/
theorem checkpoint_advanced_to_end_of_run_time :
    (processEmails (some [sampleAccount]) (Except.ok [sampleMsg]) (fun _ => false)
      5000 (some 42)).2 = some 5000
    ∧ (5000 : Nat) ≠ 0 :=
  ⟨rfl, by decide⟩

/-- C5 (witness): the amended theorem at the concrete account and message. -/
theorem processEmails_checkpoint_advance_witness :
    (processEmails (some [sampleAccount]) (Except.ok [sampleMsg]) (fun _ => false)
      5000 (some 42)).2 = some 5000
    ∧ (processEmails (some [sampleAccount]) (Except.ok [sampleMsg]) (fun _ => false)
      5000 (some 42)).1.success = true :=
  ⟨(processEmails_checkpoint_advance [sampleAccount] sampleAccount [sampleMsg]
      (fun _ => false) 5000 (some 42) rfl rfl rfl).1,
    (processEmails_checkpoint_advance [sampleAccount] sampleAccount [sampleMsg]
      (fun _ => false) 5000 (some 42) rfl rfl rfl).2.1⟩

/-! ## C4: pagination termination -/

/-- C4: against a provider serving pages of 100 refs, the pagination loop
of `fetchEmails` with the default cap 2000 consumes exactly the three
pages a three-page mailbox offers and returns all 300 refs in 3 requests;
with `maxResults = 250` it stops at the first page boundary at or past the
cap — 300 refs after 3 requests — and issues no further page requests even
when more pages remain. -/
theorem fetchEmails_pagination (p1 p2 p3 : List MessageRef)
    (rest : List (List MessageRef))
    (h1 : p1.length = 100) (h2 : p2.length = 100) (h3 : p3.length = 100) :
    fetchEmailsLoop 2000 [p1, p2, p3] [] = (p1 ++ p2 ++ p3, 3)
    ∧ (p1 ++ p2 ++ p3).length = 300
    ∧ fetchEmailsLoop 250 (p1 :: p2 :: p3 :: rest) [] = (p1 ++ p2 ++ p3, 3) := by
  refine ⟨?_, by simp [h1, h2, h3], ?_⟩
  · simp [fetchEmailsLoop, h1, h2, h3]
  · simp [fetchEmailsLoop, h1, h2, h3]

/-- A mock 100-ref page. -/
def page100 : List MessageRef := List.replicate 100 ⟨"m", "t"⟩

/-- C4 (witness): the pagination theorem at concrete 100-element pages with
a fourth page available past the cap. -/
theorem fetchEmails_pagination_witness :
    fetchEmailsLoop 2000 [page100, page100, page100] []
      = (page100 ++ page100 ++ page100, 3)
    ∧ (page100 ++ page100 ++ page100).length = 300
    ∧ fetchEmailsLoop 250 (page100 :: page100 :: page100 :: [page100]) []
      = (page100 ++ page100 ++ page100, 3) :=
  fetchEmails_pagination page100 page100 page100 [page100]
    (by simp [page100]) (by simp [page100]) (by simp [page100])

end BidVault
